import Mathlib

/-!
Shallow embedding of the Calculation-Setup Synchronization & Matrix-Calculation
Orchestration core of the activity-browser repository.

Embedded source files:
* `activity_browser/ui/tables/models/lca_setup.py`
  (`CSGenericModel.relocateRow`, `CSActivityModel.load/sync/build_row/include_activities`,
   `CSMethodsModel.update_cs/sync/build_row`)
* `activity_browser/bwutils/calculations.py` (`do_LCA_calculations`)

Modelling conventions:
* Python exceptions (assertion errors, `KeyError`, `IndexError`, raised engine
  errors) are modelled with `Option`/`Except`: `none`/`.error` means the call
  raised instead of returning.
* Qt signal emissions (`updated`, `calculation_setup_changed`), `log.error`
  calls, `QApplication.restoreOverrideCursor()` and engine compute-step
  invocations are modelled as an ordered trace of `Event` values.
* The external collaborators (Entity Registry, Method Catalog,
  Calculation-Setup Store, calculation engines) are parameters of the
  embedded operations, with the interface the source uses: get-by-key
  returning `Option`, mapping access, membership.
* Floating-point amounts are modelled by `ℚ`; only pass-through of amounts
  occurs in the embedded code, no arithmetic.
* A pandas dataframe is modelled as a `List` of rows; the all-NaN row that
  `pd.DataFrame` produces from the empty dict returned by a failed
  `CSActivityModel.build_row` is modelled as `none` in a `List (Option Row)`,
  and `DataFrame.dropna` as keeping exactly the `some` rows.
-/

/-- An entity key: `(database, code)` tuple, the stable identifier used by the
Entity Registry and the Calculation-Setup Store. -/
abbrev Key : Type := String × String

instance : DecidableEq Key := instDecidableEqProd

/-- An impact-method reference: a tuple of strings identifying a Method
Catalog entry (`bw.methods` key). -/
abbrev MethodRef : Type := List String

instance : DecidableEq MethodRef := inferInstanceAs (DecidableEq (List String))

/-- A functional unit: one entity key with its amount
(a single-entry mapping `{key: amount}` in the source). -/
abbrev FU : Type := Key × ℚ

instance : DecidableEq FU := instDecidableEqProd

/-- A calculation setup as stored in the Calculation-Setup Store:
`{"inv": [...functional units...], "ia": [...method references...]}`. -/
structure CalculationSetup where
  inv : List FU
  ia : List MethodRef
deriving DecidableEq

/-- The Calculation-Setup Store (`cs_controller` / `bd.calculation_setups`):
a name-keyed mapping of calculation setups, names unique. -/
abbrev CSStore : Type := List (String × CalculationSetup)

instance : DecidableEq CSStore :=
  inferInstanceAs (DecidableEq (List (String × CalculationSetup)))

/-- Mapping lookup in the Calculation-Setup Store; `none` models a `KeyError`
(or a failed membership test). -/
def storeGet (s : CSStore) (n : String) : Option CalculationSetup :=
  match s with
  | [] => none
  | (m, su) :: t => if m = n then some su else storeGet t n

/-- In-place mutation of one named setup in the store. -/
def storeSet (s : CSStore) (n : String) (su : CalculationSetup) : CSStore :=
  s.map (fun p => if p.1 = n then (p.1, su) else p)

/-- A live activity as the Entity Registry returns it.  `typ` models the
optional `"type"` attribute (`act.get("type", "process")`); the remaining
fields model the attributes `build_row` reads, already defaulted to `""`
when absent as `act.get(field, "")` does. -/
structure Activity where
  typ : Option String
  unit : String
  product : String
  name : String
  location : String
  database : String
deriving DecidableEq

/-- The Entity Registry's get-by-key (`activity_controller.get`); `none`
models the `ActivityDataset.DoesNotExist` exception. -/
abbrev Reg : Type := Key → Option Activity

/-- Observable effects, in emission order: Qt signals, log calls, engine
compute-step invocations and the busy-cursor clear. -/
inductive Event where
  | updated
  | setupChanged
  | logError (key : Key) (cs : String)
  | logModeError (cs : String)
  | mlcaCalculate
  | mcCalculate
  | restoreCursor
deriving DecidableEq

/-- A resolved functional-unit row of the `CSActivityModel` dataframe:
columns `Amount, Unit, Product, Activity, Location, Database, key`. -/
structure Row where
  amount : ℚ
  unit : String
  product : String
  activity : String
  location : String
  database : String
  key : Key
deriving DecidableEq

instance : Inhabited Row :=
  ⟨{ amount := 1, unit := "", product := "", activity := "", location := "",
     database := "", key := ("", "") }⟩

/-- State of the functional-unit projection (`CSActivityModel`):
the current setup name, the dataframe rows (`none` is an all-NaN row left by
a failed `build_row`), and the keys of entities currently subscribed to
(`self._activities`). -/
structure CSActivityModel where
  currentCS : Option String
  rows : List (Option Row)
  subscribed : List Key
deriving DecidableEq

/-- `CSActivityModel.build_row`: resolve a key through the Entity Registry;
`none` models the caught `TypeError` / `DoesNotExist` path that logs and
returns `{}`. -/
def buildRow (reg : Reg) (key : Key) (amount : ℚ) : Option Row :=
  match reg key with
  | none => none
  | some act =>
      if act.typ.getD "process" ≠ "process" then none
      else some { amount := amount, unit := act.unit, product := act.product,
                  activity := act.name, location := act.location,
                  database := act.database, key := key }

/-- Whether a key resolves to an existing entity of kind `"process"`
(the success condition of `build_row`). -/
def resolvesB (reg : Reg) (key : Key) : Bool :=
  match reg key with
  | none => false
  | some act => act.typ.getD "process" == "process"

/-- The row `build_row` produces for a resolving functional unit. -/
def resolvedRow (reg : Reg) (fu : FU) : Row :=
  (buildRow reg fu.1 fu.2).getD default

/-- `CSActivityModel.sync`: rebuild the dataframe from the current setup's
`inv` sequence, dropping (and logging) rows whose key fails resolution,
subscribing to each resolved entity, then emitting `updated`.
`none` models the `assert self.current_cs` failure. -/
def CSActivityModel.sync (reg : Reg) (store : CSStore) (m : CSActivityModel) :
    Option (CSActivityModel × List Event) :=
  match m.currentCS with
  | none => none
  | some cs =>
      let fus := ((storeGet store cs).map CalculationSetup.inv).getD []
      let logs := fus.filterMap (fun fu =>
        if (buildRow reg fu.1 fu.2).isNone then some (Event.logError fu.1 cs) else none)
      let newSubs := fus.filterMap (fun fu =>
        if (buildRow reg fu.1 fu.2).isSome then some fu.1 else none)
      let newRows := (fus.filterMap (fun fu => buildRow reg fu.1 fu.2)).map some
      some ({ m with rows := newRows, subscribed := m.subscribed ++ newSubs },
            logs ++ [Event.updated])

/-- `CSActivityModel.load`: assert the name is in the store, unsubscribe from
all tracked entities, set the current setup and `sync`.  `none` models the
assertion failure. -/
def CSActivityModel.load (reg : Reg) (store : CSStore) (m : CSActivityModel)
    (name : String) : Option (CSActivityModel × List Event) :=
  if (storeGet store name).isSome then
    CSActivityModel.sync reg store { m with subscribed := [], currentCS := some name }
  else none

/-- Whether a key is already present in the projection's dataframe
(`existing = set(self._dataframe.loc[:, "key"])`; NaN rows contribute no
real key). -/
def keyPresent (m : CSActivityModel) (k : Key) : Bool :=
  decide (k ∈ m.rows.filterMap (fun r => r.map Row.key))

/-- The functional units of `new_activities` whose key is not yet in the
projection (the `existing.isdisjoint(f)` filter of `include_activities`). -/
def freshFUs (m : CSActivityModel) (fus : List FU) : List FU :=
  fus.filter (fun fu => !(keyPresent m fu.1))

/-- `CSActivityModel.include_activities`: skip functional units whose key is
already present, build rows for the rest (a failed `build_row` still
contributes an all-NaN row), and append plus emit `updated` and
`calculation_setup_changed` only when the kept list is nonempty. -/
def CSActivityModel.include_activities (reg : Reg) (m : CSActivityModel)
    (newActivities : List FU) : CSActivityModel × List Event :=
  let fresh := freshFUs m newActivities
  let data := fresh.map (fun fu => buildRow reg fu.1 fu.2)
  if data.isEmpty then (m, [])
  else
    ({ m with
       rows := m.rows ++ data
       subscribed := m.subscribed ++ fresh.filterMap (fun fu =>
         if (buildRow reg fu.1 fu.2).isSome then some fu.1 else none) },
     [Event.updated, Event.setupChanged])

/-- `CSGenericModel.relocateRow`: move the row at `rowSource` so that it ends
up before the element originally at `rowTarget`, emitting `updated` and
`calculation_setup_changed`; asymmetric source logic: moving up drops then
inserts, moving down inserts into the original dataframe then drops.
`none` models the `IndexError` from `iloc`/`np.insert` on an out-of-range
index. -/
def relocateRow {α : Type} (rows : List α) (rowSource rowTarget : ℕ) :
    Option (List α × List Event) :=
  match rows[rowSource]? with
  | none => none
  | some dataSource =>
      if rowSource > rowTarget then
        some ((rows.eraseIdx rowSource).insertIdx rowTarget dataSource,
              [Event.updated, Event.setupChanged])
      else if rowSource < rowTarget then
        if rowTarget ≤ rows.length then
          some ((rows.insertIdx rowTarget dataSource).eraseIdx rowSource,
                [Event.updated, Event.setupChanged])
        else none
      else
        some (rows, [Event.updated, Event.setupChanged])

/-- Method Catalog metadata (`bw.methods[method]`), with the optional fields
`build_row` reads via `.get`. -/
structure MethodMeta where
  unit : Option String
  numCfs : Option ℕ
deriving DecidableEq

/-- The Method Catalog (`bw.methods`): a mapping from method reference to
metadata. -/
abbrev Catalog : Type := List (MethodRef × MethodMeta)

/-- Catalog lookup; `none` models a `KeyError` / failed membership test. -/
def catGet (c : Catalog) (m : MethodRef) : Option MethodMeta :=
  match c with
  | [] => none
  | (r, md) :: t => if r = m then some md else catGet t m

/-- Membership of a method reference in the Method Catalog
(`cs[i] not in bw.methods` negated). -/
def methodInCatalog (c : Catalog) (m : MethodRef) : Bool :=
  (catGet c m).isSome

/-- A row of the `CSMethodsModel` dataframe:
columns `Name, Unit, # CFs, method`. -/
structure MethodRow where
  name : String
  unit : String
  numCfs : ℕ
  method : MethodRef
deriving DecidableEq

/-- State of the method projection (`CSMethodsModel`): the current setup name
and the dataframe, which is `None` before the first named sync. -/
structure CSMethodsModel where
  currentCS : Option String
  dataframe : Option (List MethodRow)
deriving DecidableEq

/-- `CSMethodsModel.build_row`: look the method up in the Method Catalog;
`none` models the uncaught `KeyError` of `bw.methods[method]`. -/
def CSMethodsModel.buildMethodRow (catalog : Catalog) (method : MethodRef) :
    Option MethodRow :=
  (catGet catalog method).map (fun md =>
    { name := String.intercalate ", " method,
      unit := md.unit.getD "Unknown",
      numCfs := md.numCfs.getD 0,
      method := method })

/-- The `filter_methods` while-loop inside `CSMethodsModel.update_cs`:
scan forward from index `i`, popping in place any reference absent from the
Method Catalog and re-using the index after a removal. -/
def filter_methods (catalog : Catalog) (cs : List MethodRef) (i : ℕ) :
    List MethodRef :=
  if h : i < cs.length then
    if methodInCatalog catalog (cs.get ⟨i, h⟩) then
      filter_methods catalog cs (i + 1)
    else
      filter_methods catalog (cs.eraseIdx i) i
  else cs
termination_by cs.length - i
decreasing_by
  · omega
  · have hlen : (cs.eraseIdx i).length = cs.length - 1 := by
      rw [List.length_eraseIdx]
      simp [h]
    omega

/-- `CSMethodsModel.sync`: with a truthy name, assert membership in the
store, set the current setup and rebuild the dataframe from its `ia`
sequence via `build_row`; in every case emit `updated`.  `none` models an
assertion failure or a `build_row` `KeyError`. -/
def CSMethodsModel.sync (catalog : Catalog) (store : CSStore)
    (m : CSMethodsModel) (name : Option String) :
    Option (CSMethodsModel × List Event) :=
  if name.getD "" ≠ "" then
    match storeGet store (name.getD "") with
    | none => none
    | some su =>
        match su.ia.mapM (CSMethodsModel.buildMethodRow catalog) with
        | none => none
        | some rows =>
            some ({ currentCS := some (name.getD ""), dataframe := some rows },
                  [Event.updated])
  else some (m, [Event.updated])

/-- `CSMethodsModel.update_cs`: if a setup is active or a name is given, set
the current setup to `name`, filter the named setup's durable `ia` sequence
against the Method Catalog in place, then `sync(current)`; otherwise filter
every setup in the store and `sync()` with no argument.  `none` models an
uncaught `KeyError` on the store lookup. -/
def CSMethodsModel.update_cs (catalog : Catalog) (store : CSStore)
    (m : CSMethodsModel) (name : Option String) :
    Option (CSMethodsModel × CSStore × List Event) :=
  if m.currentCS.isSome || name.isSome then
    let m1 : CSMethodsModel := { m with currentCS := name }
    match name with
    | none => none
    | some n =>
        match storeGet store n with
        | none => none
        | some su =>
            let store2 := storeSet store n { su with ia := filter_methods catalog su.ia 0 }
            match CSMethodsModel.sync catalog store2 m1 (some n) with
            | none => none
            | some (m2, ev) => some (m2, store2, ev)
  else
    let store2 : CSStore := store.map (fun p =>
      (p.1, { p.2 with ia := filter_methods catalog p.2.ia 0 }))
    match CSMethodsModel.sync catalog store2 m none with
    | none => none
    | some (m2, ev) => some (m2, store2, ev)

/-- Tabular scenario/superstructure data, passed through to the scenario
engine untouched. -/
abbrev ScenarioData : Type := List (List String)

/-- Opaque deterministic multi-LCA engine object, as constructed by the
external engine code. -/
structure MLCA where
  tag : ℕ
deriving DecidableEq

/-- Opaque contribution-analysis object. -/
structure Contributions where
  tag : ℕ
deriving DecidableEq

/-- The stochastic companion (`MonteCarloLCA(demand, lcia_methods=methods)`):
a record of the construction arguments; its compute step is tracked in the
event trace. -/
structure MonteCarloLCA where
  demand : FU
  lciaMethods : List MethodRef
deriving DecidableEq

/-- Exceptions the scenario engine constructor can raise, as the source
catches them. -/
inductive EngineExc where
  | assertionError (msg : String)
  | valueError (msg : String)
  | keyError (msg : String)
  | criticalCalculation
  | scenarioExchangeNotFound
deriving DecidableEq

/-- Exceptions `do_LCA_calculations` can let escape. -/
inductive CalcExc where
  | bw2calcError (title msg : String)
  | genericException
  | criticalCalculationError
  | valueErrorExc
  | keyErrorExc
  | indexError
deriving DecidableEq

/-- The external engine constructors: `MLCA(cs_name)` with `Contributions`
(simple mode; an error is the `KeyError` message) and
`SuperstructureMLCA(cs_name, df)` with `SuperstructureContributions`
(scenario mode).

Modelled from the spec: the engine classes live outside the excerpt; the
spec describes only which exceptions their construction can raise and that
construction in simple mode takes the setup name alone. -/
structure EngineEnv where
  simpleConstruct : String → Except String (MLCA × Contributions)
  scenarioConstruct : String → Option ScenarioData → Except EngineExc (MLCA × Contributions)

/-- Input mapping of `do_LCA_calculations`, with the `data.get` defaults
(`"new calculation"`, `"simple"`) applied at use sites. -/
structure CalcData where
  csName : Option String
  calculationType : Option String
  data : Option ScenarioData

/-- The engine-construction stage of `do_LCA_calculations`: the
`if/elif/else` dispatch on the calculation type, with each engine exception
normalized (or escalated) exactly as the source's `except` clauses do, and
the busy-cursor clear traced on every scenario failure path. -/
def constructEngines (env : EngineEnv) (d : CalcData) :
    Except CalcExc (MLCA × Contributions) × List Event :=
  let csName := d.csName.getD "new calculation"
  let ct := d.calculationType.getD "simple"
  if ct = "simple" then
    match env.simpleConstruct csName with
    | .ok p => (.ok p, [])
    | .error msg => (.error (.bw2calcError "LCA Failed" msg), [])
  else if ct = "scenario" then
    match env.scenarioConstruct csName d.data with
    | .ok p => (.ok p, [])
    | .error (.assertionError msg) =>
        (.error (.bw2calcError "Scenario LCA failed." msg), [Event.restoreCursor])
    | .error (.valueError _) =>
        (.error (.bw2calcError "Scenario LCA failed."
           "Constructed LCA matrix does not contain any exchanges from the superstructure"),
         [Event.restoreCursor])
    | .error (.keyError msg) =>
        (.error (.bw2calcError "LCA Failed" msg), [Event.restoreCursor])
    | .error .criticalCalculation =>
        (.error .genericException, [Event.restoreCursor])
    | .error .scenarioExchangeNotFound =>
        (.error .criticalCalculationError, [Event.restoreCursor])
  else
    (.error .valueErrorExc, [Event.logModeError csName])

/-- `do_LCA_calculations`: construct the engines, invoke the deterministic
compute step, then build the stochastic companion from the setup's first
functional unit (`["inv"][0]`, an uncaught `IndexError` when empty) and its
full method list, returning the triple without invoking the companion's
compute step. -/
def do_LCA_calculations (env : EngineEnv) (setups : CSStore) (d : CalcData) :
    Except CalcExc (MLCA × Contributions × MonteCarloLCA) × List Event :=
  match constructEngines env d with
  | (.error e, ev) => (.error e, ev)
  | (.ok (mlca, contributions), ev) =>
      let ev2 := ev ++ [Event.mlcaCalculate]
      match storeGet setups (d.csName.getD "new calculation") with
      | none => (.error .keyErrorExc, ev2)
      | some su =>
          match su.inv with
          | [] => (.error .indexError, ev2)
          | fu :: _ =>
              (.ok (mlca, contributions, { demand := fu, lciaMethods := su.ia }), ev2)

/-! ### Concrete environments used to witness the theorems -/

/-- A small Entity Registry: `("db","a")` is a process, `("db","b")` is a
market activity (wrong kind), all other keys are absent. -/
def demoReg : Reg := fun k =>
  if k = ("db", "a") then
    some { typ := none, unit := "kg", product := "steel", name := "A",
           location := "GLO", database := "db" }
  else if k = ("db", "b") then
    some { typ := some "market", unit := "kg", product := "steel", name := "B",
           location := "GLO", database := "db" }
  else none

/-- A setup with one resolvable, one missing and one wrong-kind key. -/
def demoSetup : CalculationSetup :=
  { inv := [(("db", "a"), 2), (("db", "x"), 1), (("db", "b"), 3)],
    ia := [["m1"], ["m2"]] }

/-- A one-setup store. -/
def demoStore : CSStore := [("S", demoSetup)]

/-- An empty functional-unit projection. -/
def demoActModel : CSActivityModel :=
  { currentCS := none, rows := [], subscribed := [] }

/-- The row `build_row` produces for `("db","a")` with amount 2. -/
def demoRow : Row :=
  { amount := 2, unit := "kg", product := "steel", activity := "A",
    location := "GLO", database := "db", key := ("db", "a") }

/-- A projection already showing `("db","a")`. -/
def demoActModelLoaded : CSActivityModel :=
  { currentCS := some "S", rows := [some demoRow], subscribed := [("db", "a")] }

/-- A Method Catalog containing only `("m1",)`. -/
def demoCatalog : Catalog := [(["m1"], { unit := some "kg", numCfs := some 3 })]

/-- A method projection with an active current setup. -/
def demoMethModelActive : CSMethodsModel :=
  { currentCS := some "S", dataframe := some [] }

/-- A method projection with no active setup. -/
def demoMethModelIdle : CSMethodsModel :=
  { currentCS := none, dataframe := none }

/-- An engine environment whose simple-mode construction succeeds and whose
scenario construction raises the no-overlap `ValueError`. -/
def demoEnv : EngineEnv :=
  { simpleConstruct := fun _ => .ok ({ tag := 1 }, { tag := 2 }),
    scenarioConstruct := fun _ _ => .error (.valueError "no overlap") }

/-- A store holding a setup whose `inv` sequence is empty. -/
def demoStoreEmptyInv : CSStore := [("E", { inv := [], ia := [["m1"]] })]

/-- Simple-mode calculation input for the setup `"E"`. -/
def demoDataE : CalcData :=
  { csName := some "E", calculationType := some "simple", data := none }

/-- Simple-mode calculation input for the setup `"S"`. -/
def demoDataS : CalcData :=
  { csName := some "S", calculationType := some "simple", data := none }

/-- Scenario-mode calculation input for the setup `"S"`. -/
def demoDataScenario : CalcData :=
  { csName := some "S", calculationType := some "scenario", data := some [] }

/-- Two setups that both reference the method `("gone",)`, which is absent
from `demoCatalog`. -/
def demoTwoStore : CSStore :=
  [("S1", { inv := [], ia := [["m1"], ["gone"]] }),
   ("S2", { inv := [], ia := [["gone"], ["m1"], ["gone"]] })]

/-! ### Helper lemmas -/

theorem buildRow_eq_none_iff (reg : Reg) (k : Key) (a : ℚ) :
    buildRow reg k a = none ↔ resolvesB reg k = false := by
  unfold buildRow resolvesB
  cases reg k with
  | none => simp
  | some act =>
      by_cases h : act.typ.getD "process" = "process" <;> simp [h]

theorem filterMap_buildRow (reg : Reg) (fus : List FU) :
    fus.filterMap (fun fu => buildRow reg fu.1 fu.2) =
      (fus.filter (fun fu => resolvesB reg fu.1)).map (resolvedRow reg) := by
  induction fus with
  | nil => rfl
  | cons fu t ih =>
      cases hb : buildRow reg fu.1 fu.2 with
      | none =>
          have hres : resolvesB reg fu.1 = false := (buildRow_eq_none_iff reg fu.1 fu.2).mp hb
          simp [List.filterMap_cons, List.filter_cons, hb, hres, ih]
      | some r =>
          have hres : resolvesB reg fu.1 = true := by
            cases hres2 : resolvesB reg fu.1 with
            | false =>
                have := (buildRow_eq_none_iff reg fu.1 fu.2).mpr hres2
                simp [this] at hb
            | true => rfl
          simp [List.filterMap_cons, List.filter_cons, hb, hres, ih, resolvedRow]

theorem insertIdx_perm_cons {α : Type} (x : α) :
    ∀ (p : ℕ) (l : List α), p ≤ l.length → (l.insertIdx p x).Perm (x :: l)
  | 0, l, _ => by simp
  | p + 1, [], h => by simp at h
  | p + 1, a :: t, h => by
      simp only [List.insertIdx_succ_cons]
      exact ((insertIdx_perm_cons x p t (by simpa using h)).cons a).trans
        (List.Perm.swap x a t)

theorem perm_cons_eraseIdx {α : Type} (l : List α) (i : ℕ) (h : i < l.length) :
    l.Perm (l[i] :: l.eraseIdx i) := by
  conv_lhs => rw [← List.take_append_drop i l, ← List.getElem_cons_drop l i h]
  rw [List.eraseIdx_eq_take_drop_succ]
  exact List.perm_middle

theorem insertIdx_getElem?_self {α : Type} (l : List α) (x : α) (p : ℕ)
    (hp : p ≤ l.length) : (l.insertIdx p x)[p]? = some x := by
  have hlen : (l.insertIdx p x).length = l.length + 1 := List.length_insertIdx p l hp
  rw [List.getElem?_eq_getElem (by omega)]
  rw [List.getElem_insertIdx_self l x p hp]

theorem insertIdx_getElem?_succ {α : Type} (l : List α) (x : α) (p : ℕ)
    (hp : p < l.length) : (l.insertIdx p x)[p + 1]? = l[p]? := by
  have hlen : (l.insertIdx p x).length = l.length + 1 :=
    List.length_insertIdx p l (le_of_lt hp)
  rw [List.getElem?_eq_getElem (by omega), List.getElem?_eq_getElem hp]
  have := List.getElem_insertIdx_add_succ l x p 0 (by simpa using hp)
  simpa using this

theorem eraseIdx_getElem?_lt {α : Type} (l : List α) (i j : ℕ) (hj : j < i)
    (hi : i < l.length) : (l.eraseIdx i)[j]? = l[j]? := by
  have hlen : (l.eraseIdx i).length = l.length - 1 := by
    rw [List.length_eraseIdx]
    simp [hi]
  rw [List.getElem?_eq_getElem (by omega), List.getElem?_eq_getElem (by omega)]
  rw [List.getElem_eraseIdx]
  simp [hj]

theorem eraseIdx_getElem?_ge {α : Type} (l : List α) (i k : ℕ) (hik : i ≤ k)
    (hk : k + 1 < l.length) : (l.eraseIdx i)[k]? = l[k + 1]? := by
  have hlen : (l.eraseIdx i).length = l.length - 1 := by
    rw [List.length_eraseIdx]
    simp [show i < l.length by omega]
  rw [List.getElem?_eq_getElem (by omega), List.getElem?_eq_getElem (by omega)]
  rw [List.getElem_eraseIdx]
  simp [Nat.not_lt.mpr hik]

theorem filter_methods_go (catalog : Catalog) :
    ∀ (n : ℕ) (cs : List MethodRef) (i : ℕ), cs.length - i ≤ n →
      filter_methods catalog cs i =
        cs.take i ++ (cs.drop i).filter (fun r => methodInCatalog catalog r)
  | 0, cs, i, hn => by
      have hle : cs.length ≤ i := by omega
      rw [filter_methods, dif_neg (by omega)]
      rw [List.take_of_length_le hle, List.drop_eq_nil_of_le hle]
      simp
  | n + 1, cs, i, hn => by
      by_cases h : i < cs.length
      · rw [filter_methods, dif_pos h]
        have hget : cs.get ⟨i, h⟩ = cs[i] := rfl
        cases hm : methodInCatalog catalog (cs.get ⟨i, h⟩) with
        | true =>
            rw [if_pos rfl]
            rw [filter_methods_go catalog n cs (i + 1) (by omega)]
            rw [← List.getElem_cons_drop cs i h]
            rw [List.filter_cons_of_pos (by rw [hget] at hm; exact hm)]
            rw [List.take_succ, List.getElem?_eq_getElem h]
            simp only [Option.toList_some, List.append_assoc, List.singleton_append]
        | false =>
            rw [if_neg (by simp [hm])]
            have hlen : (cs.eraseIdx i).length = cs.length - 1 := by
              rw [List.length_eraseIdx]
              simp [h]
            rw [filter_methods_go catalog n (cs.eraseIdx i) i (by omega)]
            rw [List.eraseIdx_eq_take_drop_succ]
            have htake : (cs.take i ++ cs.drop (i + 1)).take i = cs.take i := by
              rw [List.take_append_eq_append_take, List.take_take]
              simp [List.length_take, Nat.le_of_lt h]
            have hdrop : (cs.take i ++ cs.drop (i + 1)).drop i = cs.drop (i + 1) := by
              rw [List.drop_append_eq_append_drop]
              rw [List.drop_eq_nil_of_le (by simp [List.length_take])]
              simp [List.length_take, Nat.le_of_lt h]
            rw [htake, hdrop]
            rw [← List.getElem_cons_drop cs i h]
            rw [List.filter_cons_of_neg (by rw [hget] at hm; simp [hm])]
      · rw [filter_methods, dif_neg h]
        have hle : cs.length ≤ i := by omega
        rw [List.take_of_length_le hle, List.drop_eq_nil_of_le hle]
        simp

theorem filter_methods_eq_filter (catalog : Catalog) (cs : List MethodRef) :
    filter_methods catalog cs 0 =
      cs.filter (fun r => methodInCatalog catalog r) := by
  simpa using filter_methods_go catalog cs.length cs 0 (by omega)

theorem mcCalculate_not_in_constructEngines (env : EngineEnv) (d : CalcData) :
    Event.mcCalculate ∉ (constructEngines env d).2 := by
  unfold constructEngines
  by_cases h1 : d.calculationType.getD "simple" = "simple"
  · simp only [h1, if_pos rfl]
    cases env.simpleConstruct (d.csName.getD "new calculation") <;> simp
  · by_cases h2 : d.calculationType.getD "simple" = "scenario"
    · simp only [h1, h2, if_neg, if_pos rfl, reduceIte]
      cases hr : env.scenarioConstruct (d.csName.getD "new calculation") d.data with
      | ok p => simp
      | error e => cases e <;> simp
    · simp only [h1, h2, reduceIte]
      simp

/-! ### Claim theorems -/

/-- C10: calling `relocateRow` with equal (valid) source and target indices
leaves the row data entirely unchanged, yet still emits both the `updated`
and the `calculation_setup_changed` notifications. -/
theorem relocateRow_equal_indices {α : Type} (rows : List α) (i : ℕ)
    (hi : i < rows.length) :
    relocateRow rows i i = some (rows, [Event.updated, Event.setupChanged]) := by
  simp [relocateRow, List.getElem?_eq_getElem hi]

theorem relocateRow_equal_indices_witness :
    1 < ([10, 20, 30] : List ℕ).length ∧
    relocateRow ([10, 20, 30] : List ℕ) 1 1 =
      some ([10, 20, 30], [Event.updated, Event.setupChanged]) :=
  ⟨by decide, relocateRow_equal_indices [10, 20, 30] 1 (by decide)⟩

/-- C3: evaluation of `CSMethodsModel.update_cs` at a state whose current
setup `"S"` is active (present in the store) and with no name argument:
the source sets `self.current_cs = name`, i.e. to `None`, and then raises a
`KeyError` looking `None` up in the Calculation-Setup Store — it neither
keeps the current setup active, nor filters its `ia` sequence, nor
re-syncs. -/
theorem update_cs_active_no_name_raises :
    CSMethodsModel.update_cs demoCatalog demoStore demoMethModelActive none = none := rfl

/-- C5: in scenario mode, when engine construction raises the `ValueError`
meaning the LCA matrix has no overlap with the superstructure exchanges,
`do_LCA_calculations` raises `BW2CalcError` with title `"Scenario LCA
failed."` and the fixed no-overlap message, and the busy-cursor clear is
traced exactly once, before the error propagates. -/
theorem scenario_no_overlap_normalized (env : EngineEnv) (setups : CSStore)
    (d : CalcData) (msg : String)
    (hct : d.calculationType.getD "simple" = "scenario")
    (hv : env.scenarioConstruct (d.csName.getD "new calculation") d.data =
            .error (.valueError msg)) :
    do_LCA_calculations env setups d =
      (.error (.bw2calcError "Scenario LCA failed."
         "Constructed LCA matrix does not contain any exchanges from the superstructure"),
       [Event.restoreCursor]) ∧
    (do_LCA_calculations env setups d).2.count Event.restoreCursor = 1 := by
  have hcons : constructEngines env d =
      (.error (.bw2calcError "Scenario LCA failed."
         "Constructed LCA matrix does not contain any exchanges from the superstructure"),
       [Event.restoreCursor]) := by
    simp [constructEngines, hct, hv]
  have heq : do_LCA_calculations env setups d =
      (.error (.bw2calcError "Scenario LCA failed."
         "Constructed LCA matrix does not contain any exchanges from the superstructure"),
       [Event.restoreCursor]) := by
    unfold do_LCA_calculations
    rw [hcons]
  refine ⟨heq, ?_⟩
  rw [heq]
  decide

theorem scenario_no_overlap_normalized_witness :
    demoDataScenario.calculationType.getD "simple" = "scenario" ∧
    (do_LCA_calculations demoEnv demoStore demoDataScenario =
      (.error (.bw2calcError "Scenario LCA failed."
         "Constructed LCA matrix does not contain any exchanges from the superstructure"),
       [Event.restoreCursor]) ∧
     (do_LCA_calculations demoEnv demoStore demoDataScenario).2.count Event.restoreCursor = 1) :=
  ⟨rfl, scenario_no_overlap_normalized demoEnv demoStore demoDataScenario "no overlap" rfl rfl⟩

/-- C8: `include_activities` is idempotent with respect to keys already
present: if `k` is already in the projection, a second
`include_activities([{k: v}])` immediately after the first changes nothing
— no rows added and no notifications emitted. -/
theorem include_activities_idempotent (reg : Reg) (m : CSActivityModel)
    (k : Key) (v : ℚ) (h : keyPresent m k = true) :
    CSActivityModel.include_activities reg
        (CSActivityModel.include_activities reg m [(k, v)]).1 [(k, v)] =
      ((CSActivityModel.include_activities reg m [(k, v)]).1, []) := by
  have hfresh : freshFUs m [(k, v)] = [] := by
    simp [freshFUs, h]
  have h1 : CSActivityModel.include_activities reg m [(k, v)] = (m, []) := by
    simp [CSActivityModel.include_activities, hfresh]
  rw [h1]
  simp [CSActivityModel.include_activities, hfresh]

theorem include_activities_idempotent_witness :
    keyPresent demoActModelLoaded ("db", "a") = true ∧
    CSActivityModel.include_activities demoReg
        (CSActivityModel.include_activities demoReg demoActModelLoaded
          [(("db", "a"), 5)]).1 [(("db", "a"), 5)] =
      ((CSActivityModel.include_activities demoReg demoActModelLoaded
          [(("db", "a"), 5)]).1, []) :=
  ⟨by decide,
   include_activities_idempotent demoReg demoActModelLoaded ("db", "a") 5 (by decide)⟩

/-- C7: `include_activities` skips every functional unit whose key is
already present (silently), appends a `build_row` result for each remaining
one, and emits `updated` then `calculation_setup_changed` exactly when at
least one row was appended; when nothing was appended the projection state
is unchanged and no notification is emitted. -/
theorem include_activities_spec (reg : Reg) (m : CSActivityModel)
    (newFUs : List FU) :
    (∀ fu ∈ newFUs, keyPresent m fu.1 = true → fu ∉ freshFUs m newFUs) ∧
    (freshFUs m newFUs ≠ [] →
      (CSActivityModel.include_activities reg m newFUs).1.rows =
          m.rows ++ (freshFUs m newFUs).map (fun fu => buildRow reg fu.1 fu.2) ∧
      (CSActivityModel.include_activities reg m newFUs).2 =
          [Event.updated, Event.setupChanged]) ∧
    (freshFUs m newFUs = [] →
      CSActivityModel.include_activities reg m newFUs = (m, [])) := by
  refine ⟨?_, ?_, ?_⟩
  · intro fu _ hk hmem
    have hpred := List.of_mem_filter hmem
    simp [hk] at hpred
  · intro hne
    cases hf : freshFUs m newFUs with
    | nil => exact absurd hf hne
    | cons a t =>
        constructor
        · simp [CSActivityModel.include_activities, hf]
        · simp [CSActivityModel.include_activities, hf]
  · intro hz
    simp [CSActivityModel.include_activities, hz]

theorem include_activities_spec_witness :
    (∀ fu ∈ [((("db", "a") : Key), (7 : ℚ)), (("db", "c"), 1)],
        keyPresent demoActModelLoaded fu.1 = true →
        fu ∉ freshFUs demoActModelLoaded [(("db", "a"), 7), (("db", "c"), 1)]) ∧
    (freshFUs demoActModelLoaded [(("db", "a"), 7), (("db", "c"), 1)] ≠ [] →
      (CSActivityModel.include_activities demoReg demoActModelLoaded
          [(("db", "a"), 7), (("db", "c"), 1)]).1.rows =
        demoActModelLoaded.rows ++
          (freshFUs demoActModelLoaded [(("db", "a"), 7), (("db", "c"), 1)]).map
            (fun fu => buildRow demoReg fu.1 fu.2) ∧
      (CSActivityModel.include_activities demoReg demoActModelLoaded
          [(("db", "a"), 7), (("db", "c"), 1)]).2 =
        [Event.updated, Event.setupChanged]) ∧
    (freshFUs demoActModelLoaded [(("db", "a"), 7), (("db", "c"), 1)] = [] →
      CSActivityModel.include_activities demoReg demoActModelLoaded
          [(("db", "a"), 7), (("db", "c"), 1)] = (demoActModelLoaded, [])) :=
  include_activities_spec demoReg demoActModelLoaded [(("db", "a"), 7), (("db", "c"), 1)]

/-- C1: after `load(S)` for a setup name `S` present in the store, the
projection's rows are exactly the rows built for those functional units of
`S` whose key resolves to an existing entity of kind `"process"`, in the
original order of `S`'s `inv` sequence; every functional unit whose key
fails resolution contributes no row but a logged error identifying its key
and the setup name, and no exception is raised. -/
theorem load_projects_resolvable (reg : Reg) (store : CSStore)
    (m : CSActivityModel) (S : String) (su : CalculationSetup)
    (hS : storeGet store S = some su) :
    ∃ m2 ev, CSActivityModel.load reg store m S = some (m2, ev) ∧
      m2.rows = ((su.inv.filter (fun fu => resolvesB reg fu.1)).map
                  (resolvedRow reg)).map some ∧
      (∀ fu ∈ su.inv, resolvesB reg fu.1 = false → Event.logError fu.1 S ∈ ev) := by
  simp only [CSActivityModel.load, CSActivityModel.sync, hS, Option.isSome_some,
    if_true, Option.map_some, Option.getD_some]
  refine ⟨_, _, rfl, ?_, ?_⟩
  · simp [filterMap_buildRow]
  · intro fu hmem hres
    apply List.mem_append_left
    refine List.mem_filterMap.mpr ⟨fu, hmem, ?_⟩
    have hb : buildRow reg fu.1 fu.2 = none := (buildRow_eq_none_iff _ _ _).mpr hres
    simp [hb]

theorem load_projects_resolvable_witness :
    storeGet demoStore "S" = some demoSetup ∧
    (∃ m2 ev, CSActivityModel.load demoReg demoStore demoActModel "S" = some (m2, ev) ∧
      m2.rows = ((demoSetup.inv.filter (fun fu => resolvesB demoReg fu.1)).map
                  (resolvedRow demoReg)).map some ∧
      (∀ fu ∈ demoSetup.inv, resolvesB demoReg fu.1 = false →
        Event.logError fu.1 "S" ∈ ev)) :=
  ⟨by decide,
   load_projects_resolvable demoReg demoStore demoActModel "S" demoSetup (by decide)⟩

/-- C4: `update_cs` with no name and no active setup sweeps every setup in
the store, removing in place from each durable `ia` sequence exactly the
method references absent from the Method Catalog, preserving the relative
order of the remaining references (the result is a sublist) and keeping
every reference present in the catalog; the projection state is unchanged
and `updated` is emitted. -/
theorem update_cs_global_sweep (catalog : Catalog) (store : CSStore)
    (m : CSMethodsModel) (hcur : m.currentCS = none) :
    CSMethodsModel.update_cs catalog store m none =
      some (m, store.map (fun p =>
        (p.1, { p.2 with ia := p.2.ia.filter (fun r => methodInCatalog catalog r) })),
        [Event.updated]) ∧
    ∀ p ∈ store,
      (p.2.ia.filter (fun r => methodInCatalog catalog r)).Sublist p.2.ia ∧
      ∀ r ∈ p.2.ia, (methodInCatalog catalog r = true ↔
        r ∈ p.2.ia.filter (fun r2 => methodInCatalog catalog r2)) := by
  constructor
  · simp [CSMethodsModel.update_cs, CSMethodsModel.sync, hcur, filter_methods_eq_filter]
  · intro p _
    refine ⟨List.filter_sublist _, fun r hr => ⟨fun hcat => ?_, fun hmemf => ?_⟩⟩
    · exact List.mem_filter.mpr ⟨hr, hcat⟩
    · exact (List.mem_filter.mp hmemf).2

theorem update_cs_global_sweep_witness :
    demoMethModelIdle.currentCS = none ∧
    (CSMethodsModel.update_cs demoCatalog demoTwoStore demoMethModelIdle none =
      some (demoMethModelIdle, demoTwoStore.map (fun p =>
        (p.1, { p.2 with ia := p.2.ia.filter (fun r => methodInCatalog demoCatalog r) })),
        [Event.updated]) ∧
     ∀ p ∈ demoTwoStore,
       (p.2.ia.filter (fun r => methodInCatalog demoCatalog r)).Sublist p.2.ia ∧
       ∀ r ∈ p.2.ia, (methodInCatalog demoCatalog r = true ↔
         r ∈ p.2.ia.filter (fun r2 => methodInCatalog demoCatalog r2))) :=
  ⟨rfl, update_cs_global_sweep demoCatalog demoTwoStore demoMethModelIdle rfl⟩

/-- C2 counterexample: a setup present in the store with an empty `inv`
sequence, for which simple-mode engine construction succeeds, yet
`do_LCA_calculations` does not return a triple — it raises the un-guarded
`IndexError` from `["inv"][0]`. -/
theorem do_LCA_construction_ok_but_raises :
    (demoEnv.simpleConstruct "E").isOk = true ∧
    (do_LCA_calculations demoEnv demoStoreEmptyInv demoDataE).1 =
      Except.error CalcExc.indexError :=
  ⟨rfl, rfl⟩

/-- C2 (amended): whenever engine construction succeeds and the named setup
exists in the Calculation-Setup Store with a nonempty `inv` sequence,
`do_LCA_calculations` invokes the deterministic engine's compute step and
returns a triple whose stochastic companion is constructed from only the
first functional unit of `inv` together with the full `ia` method list,
and the stochastic companion's own compute step is never invoked. -/
theorem do_LCA_success_returns_triple (env : EngineEnv) (setups : CSStore)
    (d : CalcData) (mlca : MLCA) (contributions : Contributions)
    (ev0 : List Event) (su : CalculationSetup) (fu : FU) (rest : List FU)
    (hcons : constructEngines env d = (.ok (mlca, contributions), ev0))
    (hsu : storeGet setups (d.csName.getD "new calculation") = some su)
    (hinv : su.inv = fu :: rest) :
    do_LCA_calculations env setups d =
      (.ok (mlca, contributions, { demand := fu, lciaMethods := su.ia }),
       ev0 ++ [Event.mlcaCalculate]) ∧
    Event.mlcaCalculate ∈ (do_LCA_calculations env setups d).2 ∧
    Event.mcCalculate ∉ (do_LCA_calculations env setups d).2 := by
  have heq : do_LCA_calculations env setups d =
      (.ok (mlca, contributions, { demand := fu, lciaMethods := su.ia }),
       ev0 ++ [Event.mlcaCalculate]) := by
    unfold do_LCA_calculations
    rw [hcons]
    simp [hsu, hinv]
  have hev : (constructEngines env d).2 = ev0 := by rw [hcons]
  have hmc := mcCalculate_not_in_constructEngines env d
  rw [hev] at hmc
  refine ⟨heq, ?_, ?_⟩
  · rw [heq]
    simp
  · rw [heq]
    simp only [List.mem_append]
    push_neg
    exact ⟨hmc, by simp⟩

theorem do_LCA_success_returns_triple_witness :
    constructEngines demoEnv demoDataS = (.ok ({ tag := 1 }, { tag := 2 }), []) ∧
    storeGet demoStore (demoDataS.csName.getD "new calculation") = some demoSetup ∧
    demoSetup.inv = (("db", "a"), 2) :: [(("db", "x"), 1), (("db", "b"), 3)] ∧
    (do_LCA_calculations demoEnv demoStore demoDataS =
      (.ok ({ tag := 1 }, { tag := 2 },
        { demand := (("db", "a"), 2), lciaMethods := demoSetup.ia }),
       [] ++ [Event.mlcaCalculate]) ∧
     Event.mlcaCalculate ∈ (do_LCA_calculations demoEnv demoStore demoDataS).2 ∧
     Event.mcCalculate ∉ (do_LCA_calculations demoEnv demoStore demoDataS).2) :=
  ⟨rfl, by decide, by decide,
   do_LCA_success_returns_triple demoEnv demoStore demoDataS { tag := 1 } { tag := 2 }
     [] demoSetup (("db", "a"), 2) [(("db", "x"), 1), (("db", "b"), 3)]
     rfl (by decide) (by decide)⟩

/-- C9: for a setup present in the store with an empty `inv` sequence, if
engine construction (and the deterministic compute step, which the
embedding models as always completing) succeeds, `do_LCA_calculations`
raises the `IndexError` from the unguarded `["inv"][0]` access — an
exception that is not the normalized `BW2CalcError` calculation-failure
kind. -/
theorem do_LCA_empty_inv_raises_index_error (env : EngineEnv)
    (setups : CSStore) (d : CalcData) (mlca : MLCA)
    (contributions : Contributions) (ev0 : List Event) (su : CalculationSetup)
    (hcons : constructEngines env d = (.ok (mlca, contributions), ev0))
    (hsu : storeGet setups (d.csName.getD "new calculation") = some su)
    (hinv : su.inv = []) :
    do_LCA_calculations env setups d =
      (.error .indexError, ev0 ++ [Event.mlcaCalculate]) ∧
    ∀ t msg, (CalcExc.indexError : CalcExc) ≠ CalcExc.bw2calcError t msg := by
  constructor
  · unfold do_LCA_calculations
    rw [hcons]
    simp [hsu, hinv]
  · intro t msg h
    exact CalcExc.noConfusion h

theorem do_LCA_empty_inv_raises_index_error_witness :
    constructEngines demoEnv demoDataE = (.ok ({ tag := 1 }, { tag := 2 }), []) ∧
    storeGet demoStoreEmptyInv (demoDataE.csName.getD "new calculation") =
      some { inv := [], ia := [["m1"]] } ∧
    (do_LCA_calculations demoEnv demoStoreEmptyInv demoDataE =
      (.error .indexError, [] ++ [Event.mlcaCalculate]) ∧
     ∀ t msg, (CalcExc.indexError : CalcExc) ≠ CalcExc.bw2calcError t msg) :=
  ⟨rfl, by decide,
   do_LCA_empty_inv_raises_index_error demoEnv demoStoreEmptyInv demoDataE
     { tag := 1 } { tag := 2 } [] { inv := [], ia := [["m1"]] } rfl (by decide) rfl⟩

/-- C6: for distinct valid row indices `i` and `j`, `relocateRow i j`
returns a row list that is a permutation of the original (same multiset of
rows, hence of keys; the moved row neither duplicated nor dropped), with
the moved row now immediately preceding the element originally at position
`j`, and with every other row's relative order unchanged (erasing the moved
row from its new position recovers exactly the original list minus the
moved row) — in both the move-up (`i > j`) and move-down (`i < j`) cases. -/
theorem relocateRow_moves_row {α : Type} (rows : List α) (i j : ℕ)
    (hi : i < rows.length) (hj : j < rows.length) (hij : i ≠ j) :
    ∃ res, relocateRow rows i j = some (res, [Event.updated, Event.setupChanged]) ∧
      res.Perm rows ∧
      res[if j < i then j else j - 1]? = rows[i]? ∧
      res[(if j < i then j else j - 1) + 1]? = rows[j]? ∧
      res.eraseIdx (if j < i then j else j - 1) = rows.eraseIdx i := by
  have hx : rows[i]? = some rows[i] := List.getElem?_eq_getElem hi
  have hlen : (rows.eraseIdx i).length = rows.length - 1 := by
    rw [List.length_eraseIdx]
    simp [hi]
  rcases Nat.lt_or_ge j i with hji | hge
  · have hif : (if j < i then j else j - 1) = j := if_pos hji
    refine ⟨(rows.eraseIdx i).insertIdx j rows[i], ?_, ?_, ?_, ?_, ?_⟩
    · simp only [relocateRow, hx]
      rw [if_pos hji]
    · exact (insertIdx_perm_cons rows[i] j _ (by omega)).trans
        (perm_cons_eraseIdx rows i hi).symm
    · rw [hif, insertIdx_getElem?_self _ _ _ (by omega), hx]
    · rw [hif, insertIdx_getElem?_succ _ _ _ (by omega),
        eraseIdx_getElem?_lt rows i j hji hi]
    · rw [hif, List.eraseIdx_insertIdx]
  · have hij2 : i < j := lt_of_le_of_ne hge hij
    have hif : (if j < i then j else j - 1) = j - 1 := if_neg (by omega)
    have hcanon : (rows.insertIdx j rows[i]).eraseIdx i =
        (rows.eraseIdx i).insertIdx (j - 1) rows[i] := by
      have h1 := @List.insertIdx_eraseIdx_of_ge α (rows[i]) i (j - 1) rows hi (by omega)
      rw [show j - 1 + 1 = j by omega] at h1
      exact h1.symm
    refine ⟨(rows.eraseIdx i).insertIdx (j - 1) rows[i], ?_, ?_, ?_, ?_, ?_⟩
    · simp only [relocateRow, hx]
      rw [if_neg (by omega : ¬ i > j), if_pos hij2,
        if_pos (by omega : j ≤ rows.length), hcanon]
    · exact (insertIdx_perm_cons rows[i] (j - 1) _ (by omega)).trans
        (perm_cons_eraseIdx rows i hi).symm
    · rw [hif, insertIdx_getElem?_self _ _ _ (by omega), hx]
    · rw [hif, insertIdx_getElem?_succ _ _ _ (by omega),
        eraseIdx_getElem?_ge rows i (j - 1) (by omega) (by omega),
        show j - 1 + 1 = j by omega]
    · rw [hif, List.eraseIdx_insertIdx]

theorem relocateRow_moves_row_witness :
    2 < ([10, 20, 30, 40] : List ℕ).length ∧ 0 < ([10, 20, 30, 40] : List ℕ).length ∧
    (2 : ℕ) ≠ 0 ∧
    (∃ res, relocateRow ([10, 20, 30, 40] : List ℕ) 2 0 =
        some (res, [Event.updated, Event.setupChanged]) ∧
      res.Perm [10, 20, 30, 40] ∧
      res[if (0 : ℕ) < 2 then 0 else 0 - 1]? = ([10, 20, 30, 40] : List ℕ)[2]? ∧
      res[(if (0 : ℕ) < 2 then 0 else 0 - 1) + 1]? = ([10, 20, 30, 40] : List ℕ)[0]? ∧
      res.eraseIdx (if (0 : ℕ) < 2 then 0 else 0 - 1) =
        ([10, 20, 30, 40] : List ℕ).eraseIdx 2) :=
  ⟨by decide, by decide, by decide,
   relocateRow_moves_row [10, 20, 30, 40] 2 0 (by decide) (by decide) (by decide)⟩
